import Mathlib

/-!
Verification of the share-of-voice analysis pipeline (`src/main.py`).

The core of the program is a pandas pipeline: domain normalization
(`normalize_domain`), per-row traffic estimation from a fixed CTR curve
(`estimate_traffic`), sanitization (`clean_data`) and aggregation/ranking
(`process_file`).  This file gives a shallow embedding of that pipeline and
proves (or refutes) the frozen specification claims about it.

Modelling conventions, chosen to stay value-faithful to the source:
  * A pandas DataFrame is a `List` of row structures; each stage is a pure
    function from lists to lists, mirroring the column-wise pandas code
    row-wise (all the source's table operations are row-local or group-local).
  * Text cells are `List Char` (so that all string computations are
    structurally recursive and kernel-computable).
  * Numeric cells are `ℚ`: `pd.to_numeric` produces machine floats, which we
    model at exact rational precision; float rounding error is out of scope.
    A cell pandas can coerce to a number (a number, or a numeric string) is
    modelled as `Cell.num q`; a cell it cannot coerce is `Cell.str s`; a
    missing value (`NaN`) is `Cell.na`.
  * Python's `round` is round-half-to-even on the exact value (`pyRound`),
    `int(...)` is truncation toward zero (`ratTrunc`), and `.astype('int')`
    on a float column is modelled by `ratTrunc` on each value.
  * pandas sorts are modelled by `List.insertionSort` with the corresponding
    total preorder; every property proved here is order-theoretic (sortedness
    and permutation), so the particular stable sorting algorithm is
    immaterial.
  * The normalizer exists in two forms.  `normalize_domain_py` is the
    faithful model of the source function: it includes `urlsplit`'s removal
    of tab/CR/LF characters from the URL and its `ValueError('Invalid IPv6
    URL')` on an authority with an unbalanced bracket, so it is
    `Except`-valued.  `normalize_domain` is its total restriction (no
    unsafe-character removal, no error path), with which it provably
    coincides on inputs free of tab/CR/LF whose authority has no bracket;
    the pipeline stages use the total restriction, and every pipeline
    theorem and every concrete pipeline input below lives in the
    coinciding fragment.
-/

namespace SOV

/-- Text content of a cell: a list of characters. -/
abbrev Str := List Char

/-- Truncation toward zero on `ℚ`, the behaviour of Python's `int(...)` and of
numpy's float-to-int cast (`.astype('int')`). -/
def ratTrunc (q : ℚ) : ℤ :=
  if 0 ≤ q then ⌊q⌋ else ⌈q⌉

/-- Round half to even, the behaviour of Python 3's built-in `round` at exact
rational inputs. -/
def pyRound (q : ℚ) : ℤ :=
  if q - ⌊q⌋ < 1/2 then ⌊q⌋
  else if 1/2 < q - ⌊q⌋ then ⌊q⌋ + 1
  else if ⌊q⌋ % 2 = 0 then ⌊q⌋ else ⌊q⌋ + 1

/-- The fixed CTR curve of `src/main.py` lines 9-14: a mapping from rank
positions 1..20 to click-through percentages; positions outside the dict are
absent (`none`). -/
def ctr_curve (p : ℤ) : Option ℚ :=
  if p = 1 then some 44.97 else if p = 2 then some 13.62
  else if p = 3 then some 8.65 else if p = 4 then some 4.96
  else if p = 5 then some 3.05 else if p = 6 then some 2.61
  else if p = 7 then some 2.38 else if p = 8 then some 2.47
  else if p = 9 then some 2.55 else if p = 10 then some 1.92
  else if p = 11 then some 2.31 else if p = 12 then some 2.35
  else if p = 13 then some 2.42 else if p = 14 then some 2.58
  else if p = 15 then some 2.51 else if p = 16 then some 2.12
  else if p = 17 then some 1.99 else if p = 18 then some 1.9
  else if p = 19 then some 1.76 else if p = 20 then some 1.3
  else none

/-- `estimate_traffic` of `src/main.py` lines 32-39.  `none` models a
missing (`NaN`) input, for which `pd.isna` returns true and the function
returns 0; otherwise both inputs go through `int(...)`, the position is looked
up in the CTR dict, and the estimate is `round(pct / 100 * volume)`. -/
def estimate_traffic (position search_volume : Option ℚ) : ℤ :=
  match position, search_volume with
  | some pos, some sv =>
    match ctr_curve (ratTrunc pos) with
    | some c => pyRound (c / 100 * ((ratTrunc sv : ℤ) : ℚ))
    | none => 0
  | _, _ => 0

/-- Drop the pattern `pre` from the head of `s`; `none` when `s` does not
start with `pre`. -/
def stripHead : Str → Str → Option Str
  | [], s => some s
  | _ :: _, [] => none
  | p :: ps, c :: cs => if c = p then stripHead ps cs else none

/-- Model of `re.sub(r'^https?://', '', s)`: remove one leading scheme. -/
def subScheme (s : Str) : Str :=
  match stripHead "https://".data s with
  | some r => r
  | none =>
    match stripHead "http://".data s with
    | some r => r
    | none => s

/-- The authority-slicing step of `urlsplit` (`_splitnetloc`): the authority
component is everything up to the first `/`, `?` or `#`.  This is only one
step of `urlparse('//' + s).netloc`; the full model, with the
unsafe-character removal and the error path of `urlsplit`, is
`urlsplitNetloc` below. -/
def splitNetloc (s : Str) : Str :=
  s.takeWhile (fun c => decide (¬ (c = '/' ∨ c = '?' ∨ c = '#')))

/-- Model of `re.sub(r'^www\.', '', s)`: remove one leading `www.` label. -/
def subWww (s : Str) : Str :=
  match stripHead "www.".data s with
  | some r => r
  | none => s

/-- The total restriction of `normalize_domain` of `src/main.py`
lines 16-29: strip the scheme, keep the authority component, strip one
leading `www.`.  This omits two behaviours of the real `urlparse` call —
the removal of tab/CR/LF characters and the `ValueError` on an authority
with an unbalanced bracket — which the faithful model
`normalize_domain_py` below adds; the two functions provably coincide on
inputs free of those characters whose authority has no bracket, and the
pipeline stages use this total form. -/
def normalize_domain (s : Str) : Str :=
  subWww (splitNetloc (subScheme s))

/-- The characters `urlsplit` deletes from the whole URL before parsing
(`_UNSAFE_URL_BYTES_TO_REMOVE`): tab, carriage return, newline. -/
abbrev unsafeURLChar (c : Char) : Prop :=
  c = '\t' ∨ c = '\r' ∨ c = '\n'

/-- `urlsplit`'s removal of tab/CR/LF from the URL.  (Its leading strip of
control-or-space characters is a no-op here, since the argument always has
the prepended `//` in front.) -/
def removeUnsafe (s : Str) : Str :=
  s.filter (fun c => decide (¬ unsafeURLChar c))

/-- An authority with `[` but no `]`, or `]` but no `[` — the condition on
which `urlsplit` raises `ValueError('Invalid IPv6 URL')`. -/
abbrev unbalancedBracket (n : Str) : Prop :=
  ('[' ∈ n ∧ ']' ∉ n) ∨ (']' ∈ n ∧ '[' ∉ n)

/-- Full model of `urlparse('//' + s).netloc`: remove tab/CR/LF, slice the
authority at the first `/`, `?` or `#`, and fail with
`ValueError('Invalid IPv6 URL')` when the authority has an unbalanced
bracket.  (CPython ≥ 3.11 additionally validates an authority bracketed
with both `[` and `]` as an IPv6/IPvFuture address; no claim concerns
bracketed hosts, and no theorem below says anything about an authority
containing both brackets.) -/
def urlsplitNetloc (s : Str) : Except Str Str :=
  let netloc := splitNetloc (removeUnsafe s)
  if unbalancedBracket netloc then Except.error "Invalid IPv6 URL".data
  else Except.ok netloc

/-- Faithful model of `normalize_domain` of `src/main.py` lines 16-29:
strip one leading scheme with the regex, run the remainder through
`urlparse('//' + ...)` — which removes tab/CR/LF and can raise
`ValueError` — and strip one leading `www.` from the resulting authority.
The error value models the exception propagating to the caller. -/
def normalize_domain_py (s : Str) : Except Str Str :=
  match urlsplitNetloc (subScheme s) with
  | Except.error e => Except.error e
  | Except.ok n => Except.ok (subWww n)

/-- Modelled from the spec's words in section 4.1, for the refinement claim
about the normalizer: "strip a leading `http://` or `https://` scheme; parse
the remainder as a network-location string (split off any path/query that
follows the host); strip a leading `www.` label". -/
def normalizeSpec (s : Str) : Str :=
  let noScheme := ((stripHead "https://".data s).getD
    ((stripHead "http://".data s).getD s))
  let authority := noScheme.takeWhile
    (fun c => decide (¬ (c = '/' ∨ c = '?' ∨ c = '#')))
  (stripHead "www.".data authority).getD authority

/-- A raw cell of one of the two numeric columns (`Keyword Ranking` and
`Search Volume`): missing, a value pandas can coerce to a number, or text it
cannot coerce. -/
inductive Cell where
  | na : Cell
  | num : ℚ → Cell
  | str : Str → Cell
deriving DecidableEq

/-- A row of the uploaded table, with the five required columns of
`src/main.py` line 47.  The three text columns are modelled as
text-or-missing (`Option Str`). -/
structure RawRow where
  keywords : Option Str
  rank_position : Cell
  search_volume : Cell
  domain_raw : Option Str
  page_url : Option Str
deriving DecidableEq

/-- The literal missing-value markers replaced by `NaN` in `src/main.py`
line 44. -/
def markers : List Str := ["-".data, "N/A".data, "".data]

/-- `df.replace(['-', 'N/A', ''], np.nan)` on a text column. -/
def replaceStr (o : Option Str) : Option Str :=
  match o with
  | some s => if s ∈ markers then none else some s
  | none => none

/-- `df.replace(['-', 'N/A', ''], np.nan)` on a numeric column: only textual
cells can equal one of the markers. -/
def replaceCell (c : Cell) : Cell :=
  match c with
  | Cell.str s => if s ∈ markers then Cell.na else Cell.str s
  | x => x

/-- `pd.to_numeric(..., errors='coerce')` on a cell: numbers (and numeric
strings, which `Cell.num` already covers) survive, anything else becomes
missing. -/
def toNumericCell (c : Cell) : Option ℚ :=
  match c with
  | Cell.num q => some q
  | _ => none

/-- A sanitized row: the output row type of `clean_data`.  `rank_position`
and `search_volume` hold the coerced numeric values, `domain` is normalized,
`page_url` has had missing values filled with the empty string. -/
structure CleanRow where
  keywords : Option Str
  rank_position : ℚ
  search_volume : ℚ
  domain : Str
  page_url : Str
deriving DecidableEq

/-- One row of `clean_data` (`src/main.py` lines 42-64), with the steps in
source order: marker replacement, `dropna(how='all')` over the required
columns, numeric coercion, the range filter
`1 <= ranking <= 100 and volume > 0` (a `NaN` comparison is false, so rows
with uncoercible numerics are dropped here), `fillna` for domain and page
URL, and domain normalization.  `none` means the row is dropped. -/
def cleanRow (r : RawRow) : Option CleanRow :=
  let kw := replaceStr r.keywords
  let kr := replaceCell r.rank_position
  let sv := replaceCell r.search_volume
  let dm := replaceStr r.domain_raw
  let pg := replaceStr r.page_url
  if kw = none ∧ kr = Cell.na ∧ sv = Cell.na ∧ dm = none ∧ pg = none then
    none
  else
    match toNumericCell kr, toNumericCell sv with
    | some krq, some svq =>
      if 1 ≤ krq ∧ krq ≤ 100 ∧ 0 < svq then
        some ⟨kw, krq, svq, normalize_domain (dm.getD "Unknown".data),
          pg.getD "".data⟩
      else none
    | _, _ => none

/-- `clean_data` of `src/main.py` lines 42-64, applied to the whole table. -/
def clean_data (df : List RawRow) : List CleanRow :=
  df.filterMap cleanRow

/-- Modelled from the spec's words in section 4.2 step 4, for the claim that
the range filter is the sole row-selection policy: keep exactly the rows
whose coerced rank position is in `[1, 100]` and whose coerced search volume
is positive. -/
def keepRowSpec (r : RawRow) : Option CleanRow :=
  match toNumericCell (replaceCell r.rank_position),
    toNumericCell (replaceCell r.search_volume) with
  | some krq, some svq =>
    if 1 ≤ krq ∧ krq ≤ 100 ∧ 0 < svq then
      some ⟨replaceStr r.keywords, krq, svq,
        normalize_domain ((replaceStr r.domain_raw).getD "Unknown".data),
        (replaceStr r.page_url).getD "".data⟩
    else none
  | _, _ => none

/-- A sanitized row annotated with its `Estimated Traffic` column
(`src/main.py` lines 78-80). -/
structure AnnRow extends CleanRow where
  estimated_traffic : ℤ
deriving DecidableEq

/-- The per-row estimation pass of `src/main.py` lines 78-80. -/
def annotate (clean : List CleanRow) : List AnnRow :=
  clean.map fun r =>
    { r with
      estimated_traffic :=
        estimate_traffic (some r.rank_position) (some r.search_volume) }

/-- Lexicographic comparison of text, for the ascending key order produced by
pandas `groupby` and by `sort_values` on a text column. -/
def strLeB : Str → Str → Bool
  | [], _ => true
  | _ :: _, [] => false
  | a :: as, b :: bs => if a < b then true else if b < a then false
    else strLeB as bs

/-- Key order for pairs of text values (pandas `groupby` on two columns). -/
def pairLeB (a b : Str × Str) : Bool :=
  if a.1 = b.1 then strLeB a.2 b.2 else strLeB a.1 b.1

/-- A per-domain aggregate before ranking: the result of the
`groupby('Ranked Domain Name').agg(...)` of `src/main.py` lines 83-86. -/
structure DTRow where
  domain : Str
  total_estimated_traffic : ℤ
  total_search_volume : ℚ
deriving DecidableEq

/-- The distinct domains of the annotated table, in the ascending key order
pandas `groupby` produces. -/
def domainKeys (ann : List AnnRow) : List Str :=
  List.insertionSort (fun a b => strLeB a b = true)
    ((ann.map (·.domain)).dedup)

/-- `groupby('Ranked Domain Name').agg({'Estimated Traffic': 'sum',
'Search Volume': 'sum'})` of `src/main.py` lines 83-86. -/
def groupByDomain (ann : List AnnRow) : List DTRow :=
  (domainKeys ann).map fun d =>
    ⟨d,
      ((ann.filter (fun r => decide (r.domain = d))).map
        (·.estimated_traffic)).sum,
      ((ann.filter (fun r => decide (r.domain = d))).map
        (·.search_volume)).sum⟩

/-- The two-level descending sort key of `src/main.py` lines 89-92:
`a` may come before `b` iff `a`'s estimated traffic is larger, or equal with
search volume at least as large. -/
abbrev dtLe (a b : DTRow) : Prop :=
  b.total_estimated_traffic < a.total_estimated_traffic ∨
    (b.total_estimated_traffic = a.total_estimated_traffic ∧
      b.total_search_volume ≤ a.total_search_volume)

/-- A row of the ranked domain table (`domain_traffic` after line 95 of
`src/main.py`). -/
structure DomainAggregate where
  domain : Str
  total_estimated_traffic : ℤ
  total_search_volume : ℚ
  rank : ℕ
deriving DecidableEq

/-- `domain_traffic['Rank'] = domain_traffic.index + 1` (`src/main.py`
line 95): annotate each row with its 1-based position. -/
def addRanks : ℕ → List DTRow → List DomainAggregate
  | _, [] => []
  | i, r :: rs =>
    ⟨r.domain, r.total_estimated_traffic, r.total_search_volume, i⟩ ::
      addRanks (i + 1) rs

/-- The full ranked domain list (`domain_traffic` of `src/main.py`
lines 83-95): group, sort descending by the two-level key, rank. -/
def domain_traffic (ann : List AnnRow) : List DomainAggregate :=
  addRanks 1 (List.insertionSort dtLe (groupByDomain ann))

/-- The `.astype({'Total Search Volume': 'int'})` cast of `src/main.py`
lines 104-106, value-level: the float volume total is truncated toward zero
(`Rank` and `Total Estimated Traffic` are already integral). -/
def truncVolAgg (a : DomainAggregate) : DomainAggregate :=
  { a with total_search_volume := ((ratTrunc a.total_search_volume : ℤ) : ℚ) }

/-- `top_domains = domain_traffic.head(20)` plus the integer cast
(`src/main.py` lines 98 and 104). -/
def top_domains (ann : List AnnRow) : List DomainAggregate :=
  ((domain_traffic ann).take 20).map truncVolAgg

/-- The designated-domains table of `src/main.py` lines 101 and 105-106:
rows of the full list whose domain is in the normalized designated set, with
the integer cast. -/
def designated_traffic (ann : List AnnRow) (designated : List Str) :
    List DomainAggregate :=
  ((domain_traffic ann).filter
    (fun a => decide (a.domain ∈ designated.map normalize_domain))).map
    truncVolAgg

/-- A row of the top-pages table: one (domain, page URL) pair with its
summed search volume and estimated traffic. -/
structure PageRow where
  domain : Str
  page_url : Str
  total_search_volume : ℚ
  total_estimated_traffic : ℤ
deriving DecidableEq

/-- The filter of `src/main.py` line 109: annotated rows whose domain is a
top-20 domain and whose page URL is non-blank. -/
def page_pool (ann : List AnnRow) : List AnnRow :=
  ann.filter fun r =>
    decide (r.domain ∈ (top_domains ann).map (·.domain) ∧ r.page_url ≠ [])

/-- The distinct (domain, page URL) pairs of a row list, in the ascending
key order pandas `groupby` on the two columns produces. -/
def pageKeys (pool : List AnnRow) : List (Str × Str) :=
  List.insertionSort (fun a b => pairLeB a b = true)
    ((pool.map (fun r => (r.domain, r.page_url))).dedup)

/-- The `groupby(['Ranked Domain Name', 'Ranked Page URL']).agg(...)` of
`src/main.py` lines 112-114. -/
def groupPages (pool : List AnnRow) : List PageRow :=
  (pageKeys pool).map fun k =>
    ⟨k.1, k.2,
      ((pool.filter
        (fun r => decide (r.domain = k.1 ∧ r.page_url = k.2))).map
        (·.search_volume)).sum,
      ((pool.filter
        (fun r => decide (r.domain = k.1 ∧ r.page_url = k.2))).map
        (·.estimated_traffic)).sum⟩

/-- The sort key of `src/main.py` line 117: domain ascending, then estimated
traffic descending. -/
abbrev pageLe (a b : PageRow) : Prop :=
  (a.domain = b.domain ∧
      b.total_estimated_traffic ≤ a.total_estimated_traffic) ∨
    (a.domain ≠ b.domain ∧ strLeB a.domain b.domain = true)

/-- `groupby('Ranked Domain Name').head(3)` of `src/main.py` line 118: keep
each row whose domain has been seen fewer than 3 times so far. -/
def headPerDomain (seen : List Str) : List PageRow → List PageRow
  | [] => []
  | r :: rs =>
    if seen.count r.domain < 3 then
      r :: headPerDomain (r.domain :: seen) rs
    else headPerDomain seen rs

/-- The `.astype(...)` cast of `src/main.py` line 124 on the page table,
value-level: the float volume total is truncated toward zero. -/
def truncVolPage (p : PageRow) : PageRow :=
  { p with total_search_volume := ((ratTrunc p.total_search_volume : ℤ) : ℚ) }

/-- The top-pages table of `src/main.py` lines 109-124: filter to top-20
domains with non-blank pages, group by (domain, page), sort by (domain asc,
traffic desc), keep the first 3 rows per domain, cast to integers. -/
def top_pages (ann : List AnnRow) : List PageRow :=
  (headPerDomain []
    (List.insertionSort pageLe (groupPages (page_pool ann)))).map
    truncVolPage

/-- The four tables returned by `process_file` (`src/main.py` line 126), in
source order. -/
structure Outputs where
  top_domains : List DomainAggregate
  designated_domains_traffic : List DomainAggregate
  top_pages : List PageRow
  full_domain_list : List DomainAggregate
deriving DecidableEq

/-- `process_file` of `src/main.py` lines 67-126 (with the Excel reading,
which is the excluded caller's concern, already done). -/
def process_file (df : List RawRow) (designated : List Str) : Outputs :=
  let ann := annotate (clean_data df)
  ⟨top_domains ann, designated_traffic ann designated, top_pages ann,
    domain_traffic ann⟩

/-- A one-row table whose search volume cell holds the fractional numeric
value 1.5 (pandas reads such an Excel cell as the float 1.5). -/
def df_c4 : List RawRow :=
  [⟨some "kw".data, Cell.num 1, Cell.num (3/2), some "a.com".data,
    some "p".data⟩]

/-- A one-row table with a fractional search volume, for the page table. -/
def df_c5 : List RawRow :=
  [⟨some "kw".data, Cell.num 1, Cell.num (3/2), some "b.com".data,
    some "q".data⟩]

/-- A one-row well-formed table: rank 1, volume 1000. -/
def df_c5w : List RawRow :=
  [⟨some "kw".data, Cell.num 1, Cell.num 1000, some "c.com".data,
    some "r".data⟩]

/-- A one-row table with rank 2 and fractional search volume 1.5. -/
def df_c8 : List RawRow :=
  [⟨some "kw".data, Cell.num 2, Cell.num (3/2), some "d.com".data,
    some "s".data⟩]

/-- A row whose ranking cell holds non-numeric text. -/
def row_c8w : RawRow :=
  ⟨some "kw".data, Cell.str "abc".data, Cell.num 5, some "e.com".data,
    some "t".data⟩

/-- The descending two-level key order on ranked aggregate rows: row `a` may
precede row `b` iff its estimated traffic is larger, or equal with at least
as large a search volume. -/
abbrev aggKeyGe (a b : DomainAggregate) : Prop :=
  b.total_estimated_traffic < a.total_estimated_traffic ∨
    (b.total_estimated_traffic = a.total_estimated_traffic ∧
      b.total_search_volume ≤ a.total_search_volume)

theorem strLeB_total : ∀ a b : Str, strLeB a b = true ∨ strLeB b a = true := by
  intro a
  induction a with
  | nil => intro b; left; rfl
  | cons x as ih =>
    intro b
    cases b with
    | nil => right; rfl
    | cons y bs =>
      rcases lt_trichotomy x y with h | h | h
      · left; simp [strLeB, h]
      · subst h; simpa [strLeB] using ih bs
      · right; simp [strLeB, h]

theorem strLeB_trans : ∀ a b c : Str, strLeB a b = true → strLeB b c = true →
    strLeB a c = true := by
  intro a
  induction a with
  | nil => intro b c _ _; rfl
  | cons x as ih =>
    intro b c hab hbc
    cases b with
    | nil => simp [strLeB] at hab
    | cons y bs =>
      cases c with
      | nil => simp [strLeB] at hbc
      | cons z cs =>
        rcases lt_trichotomy x y with hxy | hxy | hxy
        · rcases lt_trichotomy y z with hyz | hyz | hyz
          · simp [strLeB, lt_trans hxy hyz]
          · subst hyz; simp [strLeB, hxy]
          · simp [strLeB, hxy, not_lt.mpr (le_of_lt hxy)] at hab ⊢
            simp [strLeB, not_lt.mpr (le_of_lt hyz), hyz] at hbc
        · subst hxy
          rcases lt_trichotomy x z with hyz | hyz | hyz
          · simp [strLeB, hyz]
          · subst hyz
            simp [strLeB, lt_irrefl] at hab hbc ⊢
            exact ih bs cs hab hbc
          · simp [strLeB, not_lt.mpr (le_of_lt hyz), hyz] at hbc
        · simp [strLeB, not_lt.mpr (le_of_lt hxy), hxy] at hab

theorem strLeB_antisymm : ∀ a b : Str, strLeB a b = true →
    strLeB b a = true → a = b := by
  intro a
  induction a with
  | nil =>
    intro b _ hba
    cases b with
    | nil => rfl
    | cons y bs => simp [strLeB] at hba
  | cons x as ih =>
    intro b hab hba
    cases b with
    | nil => simp [strLeB] at hab
    | cons y bs =>
      rcases lt_trichotomy x y with h | h | h
      · simp [strLeB, not_lt.mpr (le_of_lt h), h] at hba
      · subst h
        simp [strLeB, lt_irrefl] at hab hba
        exact congrArg (x :: ·) (ih bs hab hba)
      · simp [strLeB, not_lt.mpr (le_of_lt h), h] at hab

instance : IsTotal DTRow dtLe := by
  constructor
  intro a b
  rcases lt_trichotomy b.total_estimated_traffic a.total_estimated_traffic
    with h | h | h
  · exact Or.inl (Or.inl h)
  · rcases le_total b.total_search_volume a.total_search_volume with hv | hv
    · exact Or.inl (Or.inr ⟨h, hv⟩)
    · exact Or.inr (Or.inr ⟨h.symm, hv⟩)
  · exact Or.inr (Or.inl h)

instance : IsTrans DTRow dtLe := by
  constructor
  intro a b c hab hbc
  rcases hab with h1 | ⟨h1, hv1⟩
  · rcases hbc with h2 | ⟨h2, _⟩
    · exact Or.inl (lt_trans h2 h1)
    · exact Or.inl (h2 ▸ h1)
  · rcases hbc with h2 | ⟨h2, hv2⟩
    · exact Or.inl (h1 ▸ h2)
    · exact Or.inr ⟨h1 ▸ h2, le_trans hv2 hv1⟩

instance : IsTotal PageRow pageLe := by
  constructor
  intro a b
  by_cases h : a.domain = b.domain
  · rcases le_total b.total_estimated_traffic a.total_estimated_traffic
      with hv | hv
    · exact Or.inl (Or.inl ⟨h, hv⟩)
    · exact Or.inr (Or.inl ⟨h.symm, hv⟩)
  · rcases strLeB_total a.domain b.domain with hs | hs
    · exact Or.inl (Or.inr ⟨h, hs⟩)
    · exact Or.inr (Or.inr ⟨fun e => h e.symm, hs⟩)

instance : IsTrans PageRow pageLe := by
  constructor
  intro a b c hab hbc
  rcases hab with ⟨h1, hv1⟩ | ⟨h1, hs1⟩
  · rcases hbc with ⟨h2, hv2⟩ | ⟨h2, hs2⟩
    · exact Or.inl ⟨h1.trans h2, le_trans hv2 hv1⟩
    · exact Or.inr ⟨h1 ▸ h2, h1 ▸ hs2⟩
  · rcases hbc with ⟨h2, hv2⟩ | ⟨h2, hs2⟩
    · exact Or.inr ⟨fun e => h1 (e.trans h2.symm), h2 ▸ hs1⟩
    · refine Or.inr ⟨fun e => ?_, strLeB_trans _ _ _ hs1 hs2⟩
      exact h1 (strLeB_antisymm _ _ hs1 (e ▸ hs2))

theorem addRanks_map_traffic (i : ℕ) (l : List DTRow) :
    (addRanks i l).map (·.total_estimated_traffic) =
      l.map (·.total_estimated_traffic) := by
  induction l generalizing i with
  | nil => rfl
  | cons r rs ih => simp [addRanks, ih]

theorem addRanks_map_rank (i : ℕ) (l : List DTRow) :
    (addRanks i l).map (·.rank) = List.range' i l.length := by
  induction l generalizing i with
  | nil => rfl
  | cons r rs ih => simp [addRanks, ih, List.range']

theorem addRanks_length (i : ℕ) (l : List DTRow) :
    (addRanks i l).length = l.length := by
  induction l generalizing i with
  | nil => rfl
  | cons r rs ih => simp [addRanks, ih]

theorem mem_addRanks {y : DomainAggregate} :
    ∀ {i : ℕ} {l : List DTRow}, y ∈ addRanks i l →
      ∃ s ∈ l, y.domain = s.domain ∧
        y.total_estimated_traffic = s.total_estimated_traffic ∧
        y.total_search_volume = s.total_search_volume := by
  intro i l
  induction l generalizing i with
  | nil => intro h; simp [addRanks] at h
  | cons r rs ih =>
    intro h
    simp only [addRanks, List.mem_cons] at h
    rcases h with h | h
    · subst h
      exact ⟨r, List.mem_cons_self _ _, rfl, rfl, rfl⟩
    · obtain ⟨s, hs, he⟩ := ih h
      exact ⟨s, List.mem_cons_of_mem _ hs, he⟩

theorem addRanks_pairwise_key {l : List DTRow} (h : List.Pairwise dtLe l) :
    ∀ i : ℕ, List.Pairwise aggKeyGe (addRanks i l) := by
  induction l with
  | nil => intro i; exact List.Pairwise.nil
  | cons r rs ih =>
    intro i
    rcases h with - | ⟨hr, hrs⟩
    refine List.Pairwise.cons ?_ (ih hrs (i + 1))
    intro y hy
    obtain ⟨s, hs, hd, he, hv⟩ := mem_addRanks hy
    rcases hr s hs with hlt | ⟨heq, hle⟩
    · exact Or.inl (by rw [he]; exact hlt)
    · exact Or.inr ⟨by rw [he, heq], by rw [hv]; exact hle⟩

theorem sum_single {α : Type} {M : Type} [AddCommMonoid M] (key : α → Str)
    (f : α → M) (r : α) :
    ∀ ks : List Str, ks.Nodup → key r ∈ ks →
      (ks.map (fun d => if key r = d then f r else 0)).sum = f r := by
  intro ks
  induction ks with
  | nil => intro _ h; simp at h
  | cons k ks ih =>
    intro hnd hmem
    rcases List.nodup_cons.mp hnd with ⟨hk, hnd'⟩
    by_cases h : key r = k
    · subst h
      have hz : ((ks.map (fun d => if key r = d then f r else 0)).sum) = 0 := by
        apply List.sum_eq_zero
        intro x hx
        obtain ⟨d, hd, hdx⟩ := List.mem_map.mp hx
        have : key r ≠ d := fun e => hk (e ▸ hd)
        simpa [this] using hdx.symm
      simp [hz]
    · have hmem' : key r ∈ ks := by
        rcases List.mem_cons.mp hmem with h' | h'
        · exact absurd h' h
        · exact h'
      simp [h, ih hnd' hmem']

theorem sum_map_add {α : Type} {M : Type} [AddCommMonoid M] (g h : α → M) :
    ∀ l : List α, (l.map (fun x => g x + h x)).sum =
      (l.map g).sum + (l.map h).sum := by
  intro l
  induction l with
  | nil => simp
  | cons x xs ih =>
    simp only [List.map_cons, List.sum_cons, ih]
    exact add_add_add_comm _ _ _ _

theorem sum_fiber {α : Type} {M : Type} [AddCommMonoid M] (key : α → Str)
    (f : α → M) :
    ∀ (l : List α) (ks : List Str), ks.Nodup → (∀ r ∈ l, key r ∈ ks) →
      (ks.map (fun d =>
        ((l.filter (fun r => decide (key r = d))).map f).sum)).sum =
        (l.map f).sum := by
  intro l
  induction l with
  | nil => intro ks _ _; simp
  | cons r rs ih =>
    intro ks hnd hcover
    have hr : key r ∈ ks := hcover r (List.mem_cons_self _ _)
    have hrs : ∀ x ∈ rs, key x ∈ ks := fun x hx =>
      hcover x (List.mem_cons_of_mem _ hx)
    have hsplit : ∀ d : Str,
        (((r :: rs).filter (fun x => decide (key x = d))).map f).sum =
          (if key r = d then f r else 0) +
            ((rs.filter (fun x => decide (key x = d))).map f).sum := by
      intro d
      by_cases h : key r = d <;> simp [List.filter_cons, h]
    calc (ks.map (fun d =>
        (((r :: rs).filter (fun x => decide (key x = d))).map f).sum)).sum
        = (ks.map (fun d => (if key r = d then f r else 0) +
            ((rs.filter (fun x => decide (key x = d))).map f).sum)).sum := by
          exact congrArg List.sum (List.map_congr_left (fun d _ => hsplit d))
      _ = (ks.map (fun d => if key r = d then f r else 0)).sum +
            (ks.map (fun d =>
              ((rs.filter (fun x => decide (key x = d))).map f).sum)).sum := by
          exact sum_map_add _ _ ks
      _ = f r + (rs.map f).sum := by
          rw [sum_single key f r ks hnd hr, ih ks hnd hrs]
      _ = ((r :: rs).map f).sum := by simp

theorem ratTrunc_intCast (z : ℤ) : ratTrunc ((z : ℤ) : ℚ) = z := by
  unfold ratTrunc
  split_ifs <;> simp

theorem ctr_curve_eq_none {p : ℤ} (h1 : 21 ≤ p) : ctr_curve p = none := by
  unfold ctr_curve
  repeat rw [if_neg (by omega)]

/-- C1: for an integer rank position `p` with `1 ≤ p ≤ 20` and integer
search volume `V`, the estimate is `round(ctr[p] / 100 * V)` (with Python's
half-to-even rounding); for `21 ≤ p ≤ 100` the estimate is 0; and a missing
input in either position yields 0 (the function is total, so it cannot
raise). -/
theorem C1_estimate_ctr (p V : ℤ) :
    (1 ≤ p → p ≤ 20 →
      estimate_traffic (some ((p : ℤ) : ℚ)) (some ((V : ℤ) : ℚ)) =
        pyRound (((ctr_curve p).getD 0) / 100 * ((V : ℤ) : ℚ))) ∧
    (21 ≤ p → p ≤ 100 →
      estimate_traffic (some ((p : ℤ) : ℚ)) (some ((V : ℤ) : ℚ)) = 0) ∧
    (∀ o : Option ℚ,
      estimate_traffic none o = 0 ∧ estimate_traffic o none = 0) := by
  refine ⟨?_, ?_, ?_⟩
  · intro h1 h2
    have hc : ∃ c, ctr_curve p = some c := by
      interval_cases p <;> exact ⟨_, rfl⟩
    obtain ⟨c, hc⟩ := hc
    simp [estimate_traffic, ratTrunc_intCast, hc]
  · intro h1 _
    simp [estimate_traffic, ratTrunc_intCast, ctr_curve_eq_none h1]
  · intro o
    exact ⟨by cases o <;> rfl, by cases o <;> rfl⟩

/-- Witness for C1 at position 1 and volume 1000: the estimate is
`round(44.97 / 100 * 1000) = 450`. -/
theorem C1_estimate_ctr_witness :
    estimate_traffic (some ((1 : ℤ) : ℚ)) (some ((1000 : ℤ) : ℚ)) =
        pyRound (((ctr_curve 1).getD 0) / 100 * ((1000 : ℤ) : ℚ)) ∧
      pyRound (((ctr_curve 1).getD 0) / 100 * ((1000 : ℤ) : ℚ)) = 450 := by
  refine ⟨(C1_estimate_ctr 1 1000).1 (by norm_num) (by norm_num), ?_⟩
  norm_num [ctr_curve, pyRound]

theorem cleanRow_eq_keepRowSpec (r : RawRow) : cleanRow r = keepRowSpec r := by
  simp only [cleanRow, keepRowSpec]
  split_ifs with hc
  · rw [hc.2.1, hc.2.2.1]
    rfl
  · rfl

/-- C6: sanitization keeps exactly the rows whose coerced rank position lies
in `[1, 100]` and whose coerced search volume is positive (`keepRowSpec`,
written from the spec's filtering policy); in particular rows with rank 0,
rank 101 or volume 0 are excluded, and exclusion is silent — `clean_data` is
a total function into a list, with no error channel. -/
theorem C6_range_filter (df : List RawRow) :
    clean_data df = df.filterMap keepRowSpec := by
  unfold clean_data
  rw [show cleanRow = keepRowSpec from funext cleanRow_eq_keepRowSpec]

theorem normalize_domain_eq_spec (s : Str) :
    normalize_domain s = normalizeSpec s := by
  have hw : ∀ t : Str, subWww t = (stripHead "www.".data t).getD t := by
    intro t
    unfold subWww
    cases stripHead "www.".data t <;> rfl
  have hs : ∀ t : Str, subScheme t =
      (stripHead "https://".data t).getD
        ((stripHead "http://".data t).getD t) := by
    intro t
    unfold subScheme
    cases stripHead "https://".data t
    · cases stripHead "http://".data t <;> rfl
    · rfl
  simp only [normalize_domain, normalizeSpec, splitNetloc, hw, hs]

theorem stripHead_sublist :
    ∀ (p s r : Str), stripHead p s = some r → r.Sublist s := by
  intro p
  induction p with
  | nil =>
    intro s r h
    cases h
    exact List.Sublist.refl _
  | cons x ps ih =>
    intro s r h
    cases s with
    | nil => exact absurd h (by simp [stripHead])
    | cons c cs =>
      simp only [stripHead] at h
      by_cases hc : c = x
      · rw [if_pos hc] at h
        exact List.Sublist.cons c (ih cs r h)
      · rw [if_neg hc] at h
        exact absurd h (by simp)

theorem subScheme_clean {s : Str} (h : ∀ c ∈ s, ¬ unsafeURLChar c) :
    ∀ c ∈ subScheme s, ¬ unsafeURLChar c := by
  intro c hc
  apply h
  revert hc
  unfold subScheme
  cases h8 : stripHead "https://".data s with
  | some r => exact fun hc => (stripHead_sublist _ _ _ h8).subset hc
  | none =>
    cases h7 : stripHead "http://".data s with
    | some r => exact fun hc => (stripHead_sublist _ _ _ h7).subset hc
    | none => exact fun hc => hc

theorem removeUnsafe_eq_self {s : Str} (h : ∀ c ∈ s, ¬ unsafeURLChar c) :
    removeUnsafe s = s :=
  List.filter_eq_self.mpr (fun c hc => decide_eq_true (h c hc))

theorem normalize_domain_py_ok {s : Str}
    (h : ¬ unbalancedBracket (splitNetloc (removeUnsafe (subScheme s)))) :
    normalize_domain_py s =
      Except.ok (subWww (splitNetloc (removeUnsafe (subScheme s)))) := by
  simp only [normalize_domain_py, urlsplitNetloc]
  rw [if_neg h]

/-- C7 counterexample: the real normalizer inherits `urlsplit`'s failure and
host-altering behaviour, so it is not the case that every input yields the
host "otherwise unchanged ... rather than failing": on `exa[mple.com` the
`urlparse` call raises `ValueError('Invalid IPv6 URL')` (modelled as the
error value), and on `exa<TAB>mple.com` the tab is silently deleted from
the host, so the returned host differs from the input's host. -/
theorem C7_counterexample :
    normalize_domain_py "exa[mple.com".data =
      Except.error "Invalid IPv6 URL".data ∧
    normalize_domain_py "exa\tmple.com".data =
      Except.ok "example.com".data ∧
    "example.com".data ≠ "exa\tmple.com".data := by
  refine ⟨rfl, rfl, by decide⟩

/-- C7 (amended): the normalizer strips one leading scheme, removes the
tab/CR/LF characters `urlsplit` deletes, and keeps the authority part; when
that authority has an unbalanced `[` or `]` it fails with
`ValueError('Invalid IPv6 URL')` instead of returning a string; otherwise
it strips one leading `www.` and returns the host; on inputs free of
tab/CR/LF whose authority has no unbalanced bracket it coincides exactly
with the spec's strip-scheme / authority / strip-`www.` algorithm
(`normalizeSpec`) — still without lowercasing, so
`normalize("https://www.Example.com/page") = "Example.com"`, which differs
from the lowercased form. -/
theorem C7_normalize_amended :
    (∀ s : Str,
      unbalancedBracket (splitNetloc (removeUnsafe (subScheme s))) →
        normalize_domain_py s = Except.error "Invalid IPv6 URL".data) ∧
    (∀ s : Str,
      ¬ unbalancedBracket (splitNetloc (removeUnsafe (subScheme s))) →
        normalize_domain_py s =
          Except.ok (subWww (splitNetloc (removeUnsafe (subScheme s))))) ∧
    (∀ s : Str, (∀ c ∈ s, ¬ unsafeURLChar c) →
      ¬ unbalancedBracket (splitNetloc (subScheme s)) →
        normalize_domain_py s = Except.ok (normalizeSpec s)) ∧
    (normalize_domain_py "https://www.Example.com/page".data =
      Except.ok "Example.com".data ∧
      "Example.com".data ≠ "example.com".data) := by
  refine ⟨?_, fun s h => normalize_domain_py_ok h, ?_, rfl, by decide⟩
  · intro s h
    simp only [normalize_domain_py, urlsplitNetloc]
    rw [if_pos h]
  · intro s hclean hnb
    have h1 : removeUnsafe (subScheme s) = subScheme s :=
      removeUnsafe_eq_self (subScheme_clean hclean)
    have h2 := normalize_domain_py_ok (s := s) (by rw [h1]; exact hnb)
    rw [h1] at h2
    exact h2.trans (congrArg Except.ok (normalize_domain_eq_spec s))

/-- Witness for the amended C7 at the clean input
`https://www.Example.com/page`: none of the removed characters occur and
the authority has no bracket, so the result is the spec algorithm's
output, `Example.com`. -/
theorem C7_normalize_amended_witness :
    normalize_domain_py "https://www.Example.com/page".data =
      Except.ok (normalizeSpec "https://www.Example.com/page".data) ∧
    normalizeSpec "https://www.Example.com/page".data =
      "Example.com".data :=
  ⟨C7_normalize_amended.2.2.1 "https://www.Example.com/page".data
    (by decide) (by decide), by decide⟩

/-- C8 counterexample: the source coerces the numeric columns with
`pd.to_numeric`, which produces floats, not integers.  On a row whose search
volume cell is the numeric value 1.5, the sanitized table holds the
non-integer value 3/2, so the claim's "coerced to integers" fails. -/
theorem C8_counterexample :
    (clean_data df_c8).map (·.search_volume) = [3/2] ∧
      ¬ ∃ n : ℤ, ((3/2 : ℚ)) = ((n : ℤ) : ℚ) := by
  constructor
  · simp [clean_data, df_c8, cleanRow, replaceStr, replaceCell,
      toNumericCell, markers, normalize_domain, subScheme, splitNetloc,
      subWww, stripHead, List.filterMap_cons]
    norm_num
  · rintro ⟨n, hn⟩
    rw [div_eq_iff (by norm_num : (2 : ℚ) ≠ 0)] at hn
    have h3 : (3 : ℤ) = n * 2 := by exact_mod_cast hn
    omega

/-- C8 (amended): sanitization coerces the rank and volume cells to numeric
values — a numeric cell keeps its (possibly fractional) value, non-numeric
content coerces to a missing value — and a row whose coerced rank or volume
is missing is dropped by `clean_data` rather than raising (the pipeline is
total). -/
theorem C8_coercion_amended :
    (∀ q : ℚ, toNumericCell (Cell.num q) = some q) ∧
    (∀ s : Str, toNumericCell (Cell.str s) = none) ∧
    (∀ r : RawRow,
      toNumericCell (replaceCell r.rank_position) = none ∨
        toNumericCell (replaceCell r.search_volume) = none →
      cleanRow r = none) := by
  refine ⟨fun q => rfl, fun s => rfl, ?_⟩
  intro r h
  simp only [cleanRow]
  split_ifs with hc
  · rfl
  · rcases h with h | h
    · rw [h]
    · rw [h]
      cases toNumericCell (replaceCell r.rank_position) <;> rfl

/-- Witness for the amended C8: a row whose ranking cell holds the
non-numeric text "abc" is dropped. -/
theorem C8_coercion_amended_witness : cleanRow row_c8w = none :=
  C8_coercion_amended.2.2 row_c8w (Or.inl rfl)

/-- C9: an empty (or header-only, which reads as empty) table produces four
empty output tables, with no exception — `process_file` is a total
function; and an empty designated-domains list yields an empty designated
subset on every input.  (Column headers are type-level in this embedding:
each output list carries the output row type.) -/
theorem C9_empty_inputs :
    (∀ ds : List Str, process_file [] ds = ⟨[], [], [], []⟩) ∧
    (∀ df : List RawRow,
      (process_file df []).designated_domains_traffic = []) := by
  constructor
  · intro ds
    rfl
  · intro df
    simp [process_file, designated_traffic]

/-- C10: the normalizer strips at most one `www.` label per application, so
it is not idempotent: on `www.www.example.com` one application leaves
`www.example.com`, and a second application changes that to `example.com`;
hence a designated-domain string and a row domain whose normal forms retain
different numbers of residual `www.` labels do not compare equal. -/
theorem C10_not_idempotent :
    normalize_domain "www.www.example.com".data = "www.example.com".data ∧
    normalize_domain "www.example.com".data = "example.com".data ∧
    normalize_domain (normalize_domain "www.www.example.com".data) ≠
      normalize_domain "www.www.example.com".data := by
  exact ⟨by decide, by decide, by decide⟩

theorem domainKeys_nodup (ann : List AnnRow) : (domainKeys ann).Nodup :=
  ((List.perm_insertionSort _ _).nodup_iff).mpr (List.nodup_dedup _)

theorem mem_domainKeys {ann : List AnnRow} {r : AnnRow} (hr : r ∈ ann) :
    r.domain ∈ domainKeys ann :=
  (List.perm_insertionSort _ _).mem_iff.mpr
    (List.mem_dedup.mpr (List.mem_map_of_mem _ hr))

/-- C2: the full ranked domain list is sorted non-increasing by the
two-level key (total estimated traffic, then total search volume), and its
rank column is exactly `1, 2, ..., n` — a deterministic total order (the
whole pipeline is a pure function of its input) with no rank gaps and no
shared ranks. -/
theorem C2_sort_and_rank (df : List RawRow) (ds : List Str) :
    List.Pairwise aggKeyGe ((process_file df ds).full_domain_list) ∧
    ((process_file df ds).full_domain_list).map (·.rank) =
      List.range' 1 ((process_file df ds).full_domain_list).length := by
  have h1 : List.Pairwise dtLe
      (List.insertionSort dtLe (groupByDomain (annotate (clean_data df)))) :=
    List.sorted_insertionSort dtLe _
  constructor
  · exact addRanks_pairwise_key h1 1
  · show (addRanks 1 _).map (·.rank) = List.range' 1 (addRanks 1 _).length
    rw [addRanks_map_rank, addRanks_length]

/-- C3: conservation — the total estimated traffic summed over the full
ranked domain table equals the per-row estimated traffic summed over the
sanitized, annotated table. -/
theorem C3_conservation (df : List RawRow) (ds : List Str) :
    (((process_file df ds).full_domain_list).map
      (·.total_estimated_traffic)).sum =
    ((annotate (clean_data df)).map (·.estimated_traffic)).sum := by
  show ((domain_traffic (annotate (clean_data df))).map
    (·.total_estimated_traffic)).sum = _
  unfold domain_traffic
  rw [addRanks_map_traffic]
  rw [(((List.perm_insertionSort dtLe _)).map
    (·.total_estimated_traffic)).sum_eq]
  unfold groupByDomain
  rw [List.map_map]
  exact sum_fiber (·.domain) (·.estimated_traffic) _ _
    (domainKeys_nodup _) (fun r hr => mem_domainKeys hr)

theorem ratTrunc_mono {x y : ℚ} (h : x ≤ y) : ratTrunc x ≤ ratTrunc y := by
  unfold ratTrunc
  split_ifs with hx hy hy
  · exact Int.floor_mono h
  · exact absurd (le_trans hx h) hy
  · refine le_trans (show ⌈x⌉ ≤ (0 : ℤ) from Int.ceil_le.mpr ?_)
      (Int.le_floor.mpr ?_)
    · exact_mod_cast le_of_lt (not_le.mp hx)
    · exact_mod_cast hy
  · exact Int.ceil_mono h

theorem aggKeyGe_trunc {a b : DomainAggregate} (h : aggKeyGe a b) :
    aggKeyGe (truncVolAgg a) (truncVolAgg b) := by
  rcases h with h | ⟨he, hv⟩
  · exact Or.inl h
  · exact Or.inr ⟨he, Int.cast_le.mpr (ratTrunc_mono hv)⟩

theorem domain_traffic_pairwise (ann : List AnnRow) :
    List.Pairwise aggKeyGe (domain_traffic ann) :=
  addRanks_pairwise_key (List.sorted_insertionSort dtLe _) 1

/-- C4 (amended): the top-20 table consists of the first
`min(20, distinct-domain count)` rows of the full ranked list with the
search-volume total truncated to an integer by the `.astype('int')` cast
(the identity whenever the volumes are whole numbers), and it is sorted
non-increasing by the two-level key. -/
theorem C4_top20_amended (df : List RawRow) (ds : List Str) :
    (process_file df ds).top_domains =
      (((process_file df ds).full_domain_list).take 20).map truncVolAgg ∧
    ((process_file df ds).top_domains).length =
      min 20 ((process_file df ds).full_domain_list).length ∧
    List.Pairwise aggKeyGe ((process_file df ds).top_domains) := by
  refine ⟨rfl, ?_, ?_⟩
  · show ((((domain_traffic (annotate (clean_data df)))).take 20).map
      truncVolAgg).length =
      min 20 (domain_traffic (annotate (clean_data df))).length
    simp [List.length_take]
  · exact ((domain_traffic_pairwise _).sublist (List.take_sublist _ _)).map
      _ (fun a b => aggKeyGe_trunc)

theorem clean_data_df_c4 :
    clean_data df_c4 =
      [⟨some "kw".data, 1, 3/2, "a.com".data, "p".data⟩] := by
  simp [clean_data, df_c4, cleanRow, replaceStr, replaceCell,
    toNumericCell, markers, normalize_domain, subScheme, splitNetloc,
    subWww, stripHead, List.filterMap_cons]
  try norm_num

theorem annotate_df_c4 :
    annotate (clean_data df_c4) =
      [⟨⟨some "kw".data, 1, 3/2, "a.com".data, "p".data⟩, 0⟩] := by
  rw [clean_data_df_c4]
  simp only [annotate, List.map_cons, List.map_nil]
  norm_num [estimate_traffic, ctr_curve, ratTrunc, pyRound]

theorem domain_traffic_df_c4 :
    domain_traffic (annotate (clean_data df_c4)) =
      [⟨"a.com".data, 0, 3/2, 1⟩] := by
  rw [annotate_df_c4]
  show addRanks 1 (List.insertionSort dtLe (groupByDomain _)) = _
  have hg : groupByDomain
      [(⟨⟨some "kw".data, 1, 3/2, "a.com".data, "p".data⟩, 0⟩ : AnnRow)] =
      [⟨"a.com".data, 0, 3/2⟩] := by
    simp [groupByDomain, domainKeys, List.insertionSort, List.filter_cons]
  rw [hg]
  rfl

/-- C4 counterexample: on a one-row table whose search volume is the float
1.5, the full list row holds volume 3/2 while the top-20 row holds the
truncated volume 1, so the top-20 table is not literally the 20-row prefix
of the full ranked list. -/
theorem C4_counterexample :
    (process_file df_c4 []).top_domains ≠
      ((process_file df_c4 []).full_domain_list).take 20 := by
  show top_domains (annotate (clean_data df_c4)) ≠
    (domain_traffic (annotate (clean_data df_c4))).take 20
  unfold top_domains
  rw [domain_traffic_df_c4, List.take_of_length_le (by norm_num)]
  intro h
  simp only [List.map_cons, List.map_nil, truncVolAgg, List.cons.injEq,
    DomainAggregate.mk.injEq, and_true, true_and] at h
  norm_num [ratTrunc] at h

theorem headPerDomain_sublist (seen : List Str) :
    ∀ l : List PageRow, (headPerDomain seen l).Sublist l := by
  intro l
  induction l generalizing seen with
  | nil => exact List.Sublist.refl _
  | cons r rs ih =>
    simp only [headPerDomain]
    by_cases hkeep : seen.count r.domain < 3
    · rw [if_pos hkeep]
      exact List.Sublist.cons₂ r (ih _)
    · rw [if_neg hkeep]
      exact List.Sublist.cons r (ih _)

theorem headPerDomain_countP (d : Str) :
    ∀ (l : List PageRow) (seen : List Str),
      ((headPerDomain seen l).countP (fun r => decide (r.domain = d))) +
        seen.count d ≤ max 3 (seen.count d) := by
  intro l
  induction l with
  | nil =>
    intro seen
    simp only [headPerDomain, List.countP_nil, Nat.zero_add]
    exact le_max_right _ _
  | cons r rs ih =>
    intro seen
    simp only [headPerDomain]
    by_cases hkeep : seen.count r.domain < 3
    · rw [if_pos hkeep, List.countP_cons]
      by_cases hd : r.domain = d
      · rw [hd] at hkeep
        have h1 := ih (r.domain :: seen)
        rw [List.count_cons] at h1
        simp only [hd, beq_iff_eq, if_true, decide_True, if_pos rfl] at h1 ⊢
        omega
      · have h1 := ih (r.domain :: seen)
        rw [List.count_cons] at h1
        have hbeq : (r.domain == d) = false := beq_eq_false_iff_ne.mpr hd
        simp only [hbeq, if_false, Nat.add_zero, decide_eq_true_eq] at h1 ⊢
        rw [if_neg hd]
        omega
    · rw [if_neg hkeep]
      exact ih seen

theorem mem_pageKeys {pool : List AnnRow} {k : Str × Str}
    (hk : k ∈ pageKeys pool) :
    ∃ r ∈ pool, r.domain = k.1 ∧ r.page_url = k.2 := by
  have h1 : k ∈ (pool.map (fun r => (r.domain, r.page_url))).dedup :=
    (List.perm_insertionSort _ _).subset hk
  obtain ⟨r, hr, he⟩ := List.mem_map.mp (List.mem_dedup.mp h1)
  exact ⟨r, hr, by rw [← he], by rw [← he]⟩

theorem mem_page_pool {ann : List AnnRow} {r : AnnRow}
    (hr : r ∈ page_pool ann) :
    r ∈ ann ∧ r.domain ∈ (top_domains ann).map (·.domain) ∧
      r.page_url ≠ [] := by
  have h := List.mem_filter.mp hr
  refine ⟨h.1, ?_⟩
  simpa using h.2

/-- C5 (amended): every row of the top-pages table has a domain in the
top-20 set and a non-blank page URL; its estimated-traffic entry is exactly
the sum of estimated traffic over the (domain, page) group of the filtered
annotated table, and its search-volume entry is that group's search-volume
sum truncated to an integer by the `.astype('int')` cast (the identity for
whole-number volumes); each domain contributes at most 3 rows; and within
each domain the rows are sorted non-increasing by estimated traffic. -/
theorem C5_top_pages_amended (df : List RawRow) (ds : List Str) :
    (∀ p ∈ (process_file df ds).top_pages,
      p.domain ∈ ((process_file df ds).top_domains).map
        DomainAggregate.domain ∧
      p.page_url ≠ [] ∧
      p.total_estimated_traffic =
        (((page_pool (annotate (clean_data df))).filter (fun r =>
          decide (r.domain = p.domain ∧ r.page_url = p.page_url))).map
          (·.estimated_traffic)).sum ∧
      p.total_search_volume =
        ((ratTrunc ((((page_pool (annotate (clean_data df))).filter (fun r =>
          decide (r.domain = p.domain ∧ r.page_url = p.page_url))).map
          (·.search_volume)).sum) : ℤ) : ℚ)) ∧
    (∀ d : Str, (((process_file df ds).top_pages).filter
      (fun p => decide (p.domain = d))).length ≤ 3) ∧
    List.Pairwise (fun a b => a.domain = b.domain →
      b.total_estimated_traffic ≤ a.total_estimated_traffic)
      ((process_file df ds).top_pages) := by
  refine ⟨?_, ?_, ?_⟩
  · intro p hp
    have hp' : p ∈ (headPerDomain []
        (List.insertionSort pageLe
          (groupPages (page_pool (annotate (clean_data df)))))).map
        truncVolPage := hp
    obtain ⟨g, hg, rfl⟩ := List.mem_map.mp hp'
    have hg2 : g ∈ groupPages (page_pool (annotate (clean_data df))) :=
      (List.perm_insertionSort pageLe _).subset
        ((headPerDomain_sublist _ _).subset hg)
    obtain ⟨k, hk, rfl⟩ := List.mem_map.mp hg2
    obtain ⟨r, hr, hd, hu⟩ := mem_pageKeys hk
    obtain ⟨-, hdom, hpage⟩ := mem_page_pool hr
    exact ⟨hd ▸ hdom, hu ▸ hpage, rfl, rfl⟩
  · intro d
    have h0 := headPerDomain_countP d
      (List.insertionSort pageLe
        (groupPages (page_pool (annotate (clean_data df))))) []
    simp only [List.count_nil, Nat.add_zero] at h0
    calc (((process_file df ds).top_pages).filter
        (fun p => decide (p.domain = d))).length
        = ((headPerDomain []
            (List.insertionSort pageLe
              (groupPages (page_pool (annotate (clean_data df)))))).countP
            (fun r => decide (r.domain = d))) := by
          rw [← List.countP_eq_length_filter]
          exact List.countP_map ..
      _ ≤ 3 := le_trans h0 (by norm_num)
  · have hs : List.Pairwise pageLe
        (headPerDomain []
          (List.insertionSort pageLe
            (groupPages (page_pool (annotate (clean_data df)))))) :=
      (List.sorted_insertionSort pageLe _).sublist (headPerDomain_sublist _ _)
    exact hs.map truncVolPage (fun a b hab => by
      intro hdom
      rcases hab with ⟨-, hv⟩ | ⟨hne, -⟩
      · exact hv
      · exact absurd hdom hne)

theorem annotate_df_c5 :
    annotate (clean_data df_c5) =
      [⟨⟨some "kw".data, 1, 3/2, "b.com".data, "q".data⟩, 0⟩] := by
  have h1 : clean_data df_c5 =
      [⟨some "kw".data, 1, 3/2, "b.com".data, "q".data⟩] := by
    simp [clean_data, df_c5, cleanRow, replaceStr, replaceCell,
      toNumericCell, markers, normalize_domain, subScheme, splitNetloc,
      subWww, stripHead, List.filterMap_cons]
    try norm_num
  rw [h1]
  simp only [annotate, List.map_cons, List.map_nil]
  norm_num [estimate_traffic, ctr_curve, ratTrunc, pyRound]

theorem top_domains_df_c5 :
    top_domains (annotate (clean_data df_c5)) =
      [⟨"b.com".data, 0, 1, 1⟩] := by
  have h2 : domain_traffic (annotate (clean_data df_c5)) =
      [⟨"b.com".data, 0, 3/2, 1⟩] := by
    rw [annotate_df_c5]
    show addRanks 1 (List.insertionSort dtLe (groupByDomain _)) = _
    have hg : groupByDomain
        [(⟨⟨some "kw".data, 1, 3/2, "b.com".data, "q".data⟩, 0⟩ :
          AnnRow)] = [⟨"b.com".data, 0, 3/2⟩] := by
      simp [groupByDomain, domainKeys, List.insertionSort, List.filter_cons]
    rw [hg]
    rfl
  unfold top_domains
  rw [h2, List.take_of_length_le (by norm_num)]
  simp only [List.map_cons, List.map_nil, truncVolAgg]
  norm_num [ratTrunc]

theorem top_pages_df_c5 :
    top_pages (annotate (clean_data df_c5)) =
      [⟨"b.com".data, "q".data, 1, 0⟩] ∧
    page_pool (annotate (clean_data df_c5)) =
      [⟨⟨some "kw".data, 1, 3/2, "b.com".data, "q".data⟩, 0⟩] := by
  have h4 : page_pool (annotate (clean_data df_c5)) =
      [⟨⟨some "kw".data, 1, 3/2, "b.com".data, "q".data⟩, 0⟩] := by
    unfold page_pool
    rw [top_domains_df_c5, annotate_df_c5]
    simp [List.filter_cons]
  refine ⟨?_, h4⟩
  unfold top_pages
  rw [h4]
  have h5 : groupPages
      [(⟨⟨some "kw".data, 1, 3/2, "b.com".data, "q".data⟩, 0⟩ :
        AnnRow)] = [⟨"b.com".data, "q".data, 3/2, 0⟩] := by
    simp [groupPages, pageKeys, List.insertionSort, List.filter_cons]
  rw [h5]
  show (headPerDomain [] (List.insertionSort pageLe _)).map truncVolPage = _
  have h6 : List.insertionSort pageLe [(⟨"b.com".data, "q".data, 3/2, 0⟩ :
      PageRow)] = [⟨"b.com".data, "q".data, 3/2, 0⟩] := rfl
  rw [h6]
  have h7 : headPerDomain [] [(⟨"b.com".data, "q".data, 3/2, 0⟩ :
      PageRow)] = [⟨"b.com".data, "q".data, 3/2, 0⟩] := rfl
  rw [h7]
  simp only [List.map_cons, List.map_nil, truncVolPage]
  norm_num [ratTrunc]

/-- C5 counterexample: on a one-row table with search volume 1.5 the
top-pages row holds volume 1, while the (domain, page) group of the filtered
annotated table sums to 3/2 — the final table does not hold the group's
search-volume sum, because of the `.astype('int')` cast. -/
theorem C5_counterexample :
    (process_file df_c5 []).top_pages = [⟨"b.com".data, "q".data, 1, 0⟩] ∧
    (((page_pool (annotate (clean_data df_c5))).filter (fun r =>
      decide (r.domain = "b.com".data ∧ r.page_url = "q".data))).map
      (·.search_volume)).sum = 3/2 ∧
    (1 : ℚ) ≠ 3/2 := by
  refine ⟨top_pages_df_c5.1, ?_, by norm_num⟩
  rw [top_pages_df_c5.2]
  simp [List.filter_cons]

theorem annotate_df_c5w :
    annotate (clean_data df_c5w) =
      [⟨⟨some "kw".data, 1, 1000, "c.com".data, "r".data⟩, 450⟩] := by
  have h1 : clean_data df_c5w =
      [⟨some "kw".data, 1, 1000, "c.com".data, "r".data⟩] := by
    simp [clean_data, df_c5w, cleanRow, replaceStr, replaceCell,
      toNumericCell, markers, normalize_domain, subScheme, splitNetloc,
      subWww, stripHead, List.filterMap_cons]
    try norm_num
  rw [h1]
  simp only [annotate, List.map_cons, List.map_nil]
  norm_num [estimate_traffic, ctr_curve, ratTrunc, pyRound]

theorem top_pages_df_c5w :
    top_pages (annotate (clean_data df_c5w)) =
      [⟨"c.com".data, "r".data, 1000, 450⟩] := by
  have h3 : top_domains (annotate (clean_data df_c5w)) =
      [⟨"c.com".data, 450, 1000, 1⟩] := by
    have h2 : domain_traffic (annotate (clean_data df_c5w)) =
        [⟨"c.com".data, 450, 1000, 1⟩] := by
      rw [annotate_df_c5w]
      show addRanks 1 (List.insertionSort dtLe (groupByDomain _)) = _
      have hg : groupByDomain
          [(⟨⟨some "kw".data, 1, 1000, "c.com".data, "r".data⟩, 450⟩ :
            AnnRow)] = [⟨"c.com".data, 450, 1000⟩] := by
        simp [groupByDomain, domainKeys, List.insertionSort,
          List.filter_cons]
      rw [hg]
      rfl
    unfold top_domains
    rw [h2, List.take_of_length_le (by norm_num)]
    simp only [List.map_cons, List.map_nil, truncVolAgg]
    norm_num [ratTrunc]
  have h4 : page_pool (annotate (clean_data df_c5w)) =
      [⟨⟨some "kw".data, 1, 1000, "c.com".data, "r".data⟩, 450⟩] := by
    unfold page_pool
    rw [h3, annotate_df_c5w]
    simp [List.filter_cons]
  unfold top_pages
  rw [h4]
  have h5 : groupPages
      [(⟨⟨some "kw".data, 1, 1000, "c.com".data, "r".data⟩, 450⟩ :
        AnnRow)] = [⟨"c.com".data, "r".data, 1000, 450⟩] := by
    simp [groupPages, pageKeys, List.insertionSort, List.filter_cons]
  rw [h5]
  show (headPerDomain [] (List.insertionSort pageLe _)).map truncVolPage = _
  have h6 : List.insertionSort pageLe [(⟨"c.com".data, "r".data, 1000,
      450⟩ : PageRow)] = [⟨"c.com".data, "r".data, 1000, 450⟩] := rfl
  have h7 : headPerDomain [] [(⟨"c.com".data, "r".data, 1000, 450⟩ :
      PageRow)] = [⟨"c.com".data, "r".data, 1000, 450⟩] := rfl
  rw [h6, h7]
  simp only [List.map_cons, List.map_nil, truncVolPage]
  norm_num [ratTrunc]

/-- Witness for the amended C5, applying it to the single page row produced
by a one-row table (rank 1, volume 1000, domain `c.com`, page `r`). -/
theorem C5_top_pages_amended_witness :
    (⟨"c.com".data, "r".data, 1000, 450⟩ : PageRow).domain ∈
      ((process_file df_c5w []).top_domains).map DomainAggregate.domain ∧
    (⟨"c.com".data, "r".data, 1000, 450⟩ : PageRow).page_url ≠ [] ∧
    (⟨"c.com".data, "r".data, 1000, 450⟩ :
        PageRow).total_estimated_traffic =
      (((page_pool (annotate (clean_data df_c5w))).filter (fun r =>
        decide (r.domain = (⟨"c.com".data, "r".data, 1000, 450⟩ :
            PageRow).domain ∧
          r.page_url = (⟨"c.com".data, "r".data, 1000, 450⟩ :
            PageRow).page_url))).map (·.estimated_traffic)).sum ∧
    (⟨"c.com".data, "r".data, 1000, 450⟩ : PageRow).total_search_volume =
      ((ratTrunc ((((page_pool (annotate (clean_data df_c5w))).filter
        (fun r => decide (r.domain = (⟨"c.com".data, "r".data, 1000, 450⟩ :
            PageRow).domain ∧
          r.page_url = (⟨"c.com".data, "r".data, 1000, 450⟩ :
            PageRow).page_url))).map (·.search_volume)).sum) : ℤ) : ℚ) :=
  (C5_top_pages_amended df_c5w []).1 ⟨"c.com".data, "r".data, 1000, 450⟩
    (by
      show _ ∈ top_pages (annotate (clean_data df_c5w))
      rw [top_pages_df_c5w]
      exact List.mem_singleton.mpr rfl)

end SOV
